import Mathlib

/-!
Verification of the surface-management algorithms of the RMG-Py reaction-system
solver, as exercised by `rmgpy/solver/baseTest.py`.

Species are identified by natural numbers (object identity in the Python code);
a reaction references its reactant and product species by identity.  The solver
implementation (`rmgpy/solver/base.pyx`) is not part of the visible sources, so
the operations below are modelled from the specification of the Surface
Consistency Resolver, the Layering Extension Finder, the reaction-system state
operations, and the persistence layer.
-/

namespace RMG

/-- A reaction referencing its reactant and product species by identity. -/
structure Reaction where
  reactants : List Nat
  products : List Nat
deriving DecidableEq, Repr

/-- The species a reaction depends on: its reactants followed by its products. -/
def Reaction.species (r : Reaction) : List Nat :=
  r.reactants ++ r.products

/-- Modelled from the spec: the reaction-filtering half of the Surface
Consistency Resolver (`initialize_surface` in `rmgpy/solver/base.pyx` is not
under the visible sources).  A candidate surface reaction is retained only if
every species it depends on is present in the candidate surface species set;
the filter is stable (candidate order is preserved). -/
def keptReactions (ss : List Nat) (sr : List Reaction) : List Reaction :=
  sr.filter (fun r => r.species.all (fun t => decide (t ∈ ss)))

/-- Modelled from the spec: the species-filtering half of the Surface
Consistency Resolver.  After reaction filtering, a candidate surface species is
retained only if it still participates in at least one retained surface
reaction; the filter is stable. -/
def keptSpecies (ss : List Nat) (sr : List Reaction) : List Nat :=
  ss.filter (fun s => (keptReactions ss sr).any (fun r => decide (s ∈ r.species)))

/-- Modelled from the spec: the Surface Consistency Resolver.  Given candidate
surface species and surface reactions it produces the consistent surface
subset, removing reactions whose dependencies are not fully contained in the
candidate species set and then species left with no retained reaction. -/
def resolveSurface (ss : List Nat) (sr : List Reaction) : List Nat × List Reaction :=
  (keptSpecies ss sr, keptReactions ss sr)

/-- Modelled from the spec: error raised by `initializeModel` when a provided
surface species or surface reaction is absent from the corresponding core
list. -/
inductive IndexingError where
  | speciesNotInCore : IndexingError
  | reactionNotInCore : IndexingError
deriving DecidableEq, Repr

/-- The reaction-system state rebuilt by `initializeModel`: the core, edge and
(resolved) surface index sets, together with the derived numeric index data. -/
structure ReactionSystemState where
  numCoreSpecies : Nat
  numCoreReactions : Nat
  coreSpecies : List Nat
  coreReactions : List Reaction
  edgeSpecies : List Nat
  edgeReactions : List Reaction
  surfaceSpecies : List Nat
  surfaceReactions : List Reaction
  surfaceSpeciesIndices : List Nat
deriving DecidableEq, Repr

/-- Modelled from the spec: `initializeModel` (the implementation in
`rmgpy/solver/base.pyx` is not under the visible sources).  It fails with an
`IndexingError` if a provided surface species (resp. reaction) is not found in
the provided core species (resp. reactions) list; otherwise it resets all index
sets from the provided lists, runs the Surface Consistency Resolver on the
provided surface subset, and recomputes `numCoreSpecies`, `numCoreReactions`
and `surfaceSpeciesIndices` (the positions of the resolved surface species
within the core species list, in surface-list order). -/
def initializeModel (cs : List Nat) (cr : List Reaction) (es : List Nat)
    (er : List Reaction) (ss : List Nat) (sr : List Reaction) :
    Except IndexingError ReactionSystemState :=
  if ss.all (fun s => decide (s ∈ cs)) then
    if sr.all (fun r => decide (r ∈ cr)) then
      Except.ok
        { numCoreSpecies := cs.length
          numCoreReactions := cr.length
          coreSpecies := cs
          coreReactions := cr
          edgeSpecies := es
          edgeReactions := er
          surfaceSpecies := keptSpecies ss sr
          surfaceReactions := keptReactions ss sr
          surfaceSpeciesIndices := (keptSpecies ss sr).map (fun s => cs.indexOf s) }
    else Except.error IndexingError.reactionNotInCore
  else Except.error IndexingError.speciesNotInCore

/-- The per-reaction dependency test of the Layering Extension Finder: every
species the reaction depends on is already in the core or in the working
surface-species set. -/
def depsSatisfied (core W : List Nat) (r : Reaction) : Bool :=
  r.species.all (fun s => decide (s ∈ core) || decide (s ∈ W))

/-- Modelled from the spec: the scan of the Layering Extension Finder.  It
processes the candidate edge reactions in the given order, keeping a working
surface-species set `W`; a candidate at position `k` is selected when all its
dependent species are already in the core or in `W`, in which case its species
join the working surface; otherwise it is excluded (and later candidates that
depend on its unpromoted species fail the same test). -/
def layeringFrom (core : List Nat) : List Nat → Nat → List Reaction → List Nat
  | _, _, [] => []
  | W, k, r :: rest =>
    if depsSatisfied core W r then
      k :: layeringFrom core (W ++ r.species) (k + 1) rest
    else
      layeringFrom core W (k + 1) rest

/-- Modelled from the spec: `getLayeringIndices` computes the zero-based
positions, in the caller-supplied ordered candidate list of edge reactions, of
the reactions that can be promoted to the surface without violating the
layering constraint. -/
def getLayeringIndices (core surface : List Nat) (cands : List Reaction) : List Nat :=
  layeringFrom core surface 0 cands

/-- The working surface-species set of the Layering Extension Finder after
processing a list of candidates: starts from the current surface species and
grows by the species of each selected candidate. -/
def workAfter (core : List Nat) : List Nat → List Reaction → List Nat
  | W, [] => W
  | W, r :: rest =>
    if depsSatisfied core W r then
      workAfter core (W ++ r.species) rest
    else
      workAfter core W rest

/-- Append to the surface-species list those dependent species of a reaction
that are edge species and not yet in the surface, in dependency order. -/
def addSpeciesOfReaction (es : List Nat) (ss : List Nat) (r : Reaction) : List Nat :=
  r.species.foldl (fun acc s => if s ∈ es ∧ s ∉ acc then acc ++ [s] else acc) ss

/-- Modelled from the spec: `addReactionsToSurface` (the implementation in
`rmgpy/solver/base.pyx` is not under the visible sources).  The layering filter
has already been applied by the caller, which passes the selected edge
reactions together with their edge indices; this operation appends the given
reactions to the surface-reactions list and their edge species to the
surface-species list, in order, returning the updated pair of lists. -/
def addReactionsToSurface (newRxns : List Reaction) (newRxnIndices : List Nat)
    (ss : List Nat) (sr : List Reaction) (es : List Nat) :
    List Nat × List Reaction :=
  (newRxns.foldl (addSpeciesOfReaction es) ss, sr ++ newRxns)

/-- Modelled from the spec: reaction 0 of the concrete test network (the
chemkin mechanism under `rmgpy/solver/files/listener/` is not among the visible
sources); its dependencies lie outside the candidate surface species of the
9-species scenario and inside the surface species of the 7-species scenario. -/
def rxnA : Reaction := { reactants := [5], products := [5] }

/-- Modelled from the spec: reaction 1 of the concrete test network; it
references the remaining edge species of the promotion scenario. -/
def rxnB : Reaction := { reactants := [7], products := [8] }

/-- Modelled from the spec: reaction 2 of the concrete test network; all of its
dependencies are the single surviving surface species. -/
def rxnC : Reaction := { reactants := [6], products := [6] }

/-- Modelled from the spec: reaction 3 of the concrete test network; all of its
dependencies are the single surviving surface species. -/
def rxnD : Reaction := { reactants := [6, 6], products := [6] }

/-- Modelled from the spec: the nine core species of the concrete test
network. -/
def coreSpecies9 : List Nat := [0, 1, 2, 3, 4, 5, 6, 7, 8]

/-- Modelled from the spec: the four core reactions of the concrete test
network. -/
def coreReactions9 : List Reaction := [rxnA, rxnB, rxnC, rxnD]

/-- Modelled from the spec: the seven-species core list of the layering
scenario (core species 0-5 together with species 8). -/
def coreSpecies7 : List Nat := [0, 1, 2, 3, 4, 5, 8]

/-- Modelled from the spec: first candidate edge reaction of the layering
scenario; it depends on species not yet promoted, so it violates the layering
constraint. -/
def rxnQ1 : Reaction := { reactants := [6], products := [7] }

/-- Modelled from the spec: second candidate edge reaction of the layering
scenario; all of its dependencies are core species. -/
def rxnQ2 : Reaction := { reactants := [0], products := [1] }

/-- Modelled from the spec: third candidate edge reaction of the layering
scenario; all of its dependencies are core species. -/
def rxnQ3 : Reaction := { reactants := [1, 2], products := [3] }

/-- A two-species reaction used to exhibit surface candidates listed against
core order. -/
def rxnE : Reaction := { reactants := [1, 0], products := [] }

/-- The reaction-system state produced by `initializeModel` in the concrete
9-core-species scenario. -/
def st9 : ReactionSystemState :=
  { numCoreSpecies := 9
    numCoreReactions := 4
    coreSpecies := coreSpecies9
    coreReactions := coreReactions9
    edgeSpecies := []
    edgeReactions := []
    surfaceSpecies := [6]
    surfaceReactions := [rxnC, rxnD]
    surfaceSpeciesIndices := [6] }

/-- The reaction-system state produced by `initializeModel` in the concrete
7-core-species layering scenario. -/
def st7 : ReactionSystemState :=
  { numCoreSpecies := 7
    numCoreReactions := 1
    coreSpecies := coreSpecies7
    coreReactions := [rxnA]
    edgeSpecies := [6, 7]
    edgeReactions := [rxnQ1, rxnQ2, rxnQ3]
    surfaceSpecies := [5]
    surfaceReactions := [rxnA]
    surfaceSpeciesIndices := [5] }

/-- The concrete reactor variants that can be serialized; the test reactor is a
well-mixed batch reactor (`SimpleReactor`). -/
inductive ReactorVariant where
  | simpleReactor : ReactorVariant
  | liquidReactor : ReactorVariant
  | mbsampledReactor : ReactorVariant
deriving DecidableEq, Repr

/-- Numeric tag of a reactor variant in the serialized form. -/
def ReactorVariant.toTag : ReactorVariant → Nat
  | .simpleReactor => 0
  | .liquidReactor => 1
  | .mbsampledReactor => 2

/-- Recover a reactor variant from its serialized tag. -/
def ReactorVariant.ofTag : Nat → Option ReactorVariant
  | 0 => some .simpleReactor
  | 1 => some .liquidReactor
  | 2 => some .mbsampledReactor
  | _ => none

/-- Modelled from the spec: the reactor state subject to persistence (the
`SimpleReactor` class and the pickle machinery are not among the visible
sources).  It carries the concrete variant, the temperature and pressure
values, and the two termination-criteria values (conversion threshold and time
limit); physical-quantity values are modelled as exact rationals. -/
structure Reactor where
  variant : ReactorVariant
  T : ℚ
  P : ℚ
  terminationConversion : ℚ
  terminationTime : ℚ
deriving DecidableEq

/-- A token of the serialized reactor representation: a variant tag or a
numeric field value. -/
inductive PickleToken where
  | tagTok : Nat → PickleToken
  | numTok : ℚ → PickleToken
deriving DecidableEq

/-- Modelled from the spec: serialization of a reactor (`pickle.dumps`) to a
restorable token stream carrying the variant as polymorphic type information
followed by the physical parameters and termination criteria. -/
def pickleDumps (r : Reactor) : List PickleToken :=
  [PickleToken.tagTok r.variant.toTag, PickleToken.numTok r.T, PickleToken.numTok r.P,
   PickleToken.numTok r.terminationConversion, PickleToken.numTok r.terminationTime]

/-- Modelled from the spec: deserialization of a reactor (`pickle.loads`) from
the token stream; fails on a malformed stream or an unknown variant tag. -/
def pickleLoads : List PickleToken → Option Reactor
  | [PickleToken.tagTok v, PickleToken.numTok t, PickleToken.numTok p,
     PickleToken.numTok c, PickleToken.numTok tt] =>
    (ReactorVariant.ofTag v).map (fun va =>
      { variant := va, T := t, P := p, terminationConversion := c, terminationTime := tt })
  | _ => none

/-- A heap of caller-owned list objects, addressed by reference: the mutable
Python list objects passed to `initializeModel`. -/
structure ListHeap where
  speciesAt : Nat → List Nat
  reactionsAt : Nat → List Reaction

/-- Overwrite the species list stored at a reference. -/
def writeSpecies (h : ListHeap) (ref : Nat) (l : List Nat) : ListHeap :=
  { speciesAt := fun n => if n = ref then l else h.speciesAt n
    reactionsAt := h.reactionsAt }

/-- Overwrite the reaction list stored at a reference. -/
def writeReactions (h : ListHeap) (ref : Nat) (l : List Reaction) : ListHeap :=
  { speciesAt := h.speciesAt
    reactionsAt := fun n => if n = ref then l else h.reactionsAt n }

/-- Modelled from the spec: `initializeModel` viewed with explicit references
to the caller-supplied surface lists.  The surface candidate lists are read
from the heap, the model is initialized, and the Resolver-filtered surface is
written back in place to the very references the caller passed in. -/
def initializeModelInPlace (h : ListHeap) (cs : List Nat) (cr : List Reaction)
    (es : List Nat) (er : List Reaction) (ssRef srRef : Nat) :
    Except IndexingError (ListHeap × ReactionSystemState) :=
  match initializeModel cs cr es er (h.speciesAt ssRef) (h.reactionsAt srRef) with
  | Except.error e => Except.error e
  | Except.ok st =>
    Except.ok (writeReactions (writeSpecies h ssRef st.surfaceSpecies) srRef
      st.surfaceReactions, st)

/-- A concrete heap holding the surface candidate lists of the 9-species
scenario at reference 0. -/
def heap9 : ListHeap :=
  { speciesAt := fun n => if n = 0 then [7, 6] else []
    reactionsAt := fun n => if n = 0 then [rxnA, rxnC, rxnD] else [] }

/-- The heap after `initializeModel` has written the resolved surface of the
9-species scenario back to the caller's list objects. -/
def heap9After : ListHeap :=
  writeReactions (writeSpecies heap9 0 [6]) 0 [rxnC, rxnD]

/-- A species that belongs to a retained surface reaction is itself retained by
the Surface Consistency Resolver. -/
theorem mem_keptSpecies_of (ss : List Nat) (sr : List Reaction) (r : Reaction) (s : Nat)
    (hr : r ∈ keptReactions ss sr) (hs : s ∈ r.species) : s ∈ keptSpecies ss sr := by
  have h1 := List.mem_filter.mp hr
  have h2 : s ∈ ss := of_decide_eq_true (List.all_eq_true.mp h1.2 s hs)
  exact List.mem_filter.mpr
    ⟨h2, List.any_eq_true.mpr ⟨r, hr, decide_eq_true hs⟩⟩

/-- Characterization of a successful `initializeModel` call: the state carries
the provided core lists, the Resolver-filtered surface, the surface indices
computed from the core species list, and every provided surface species and
reaction was found in the corresponding core list. -/
theorem initializeModel_ok_spec (cs : List Nat) (cr : List Reaction) (es : List Nat)
    (er : List Reaction) (ss : List Nat) (sr : List Reaction) (st : ReactionSystemState)
    (hok : initializeModel cs cr es er ss sr = Except.ok st) :
    st.coreSpecies = cs ∧ st.surfaceSpecies = keptSpecies ss sr ∧
    st.surfaceReactions = keptReactions ss sr ∧
    st.surfaceSpeciesIndices = (keptSpecies ss sr).map (fun s => cs.indexOf s) ∧
    (∀ s ∈ ss, s ∈ cs) ∧ (∀ r ∈ sr, r ∈ cr) := by
  unfold initializeModel at hok
  split at hok
  case isTrue h1 =>
    split at hok
    case isTrue h2 =>
      cases hok
      refine ⟨rfl, rfl, rfl, rfl, ?_, ?_⟩
      · intro s hs
        exact of_decide_eq_true (List.all_eq_true.mp h1 s hs)
      · intro r hr
        exact of_decide_eq_true (List.all_eq_true.mp h2 r hr)
    case isFalse h2 => exact Except.noConfusion hok
  case isFalse h1 => exact Except.noConfusion hok

/-- C1: for every candidate surface subset given to `initializeModel`, after
the Surface Consistency Resolver runs, every reaction retained in the resulting
surface reactions has all of its referenced species (reactants and products)
present in the resulting surface species set. -/
theorem surface_closure (cs : List Nat) (cr : List Reaction) (es : List Nat)
    (er : List Reaction) (ss : List Nat) (sr : List Reaction) (st : ReactionSystemState)
    (r : Reaction) (s : Nat) (hok : initializeModel cs cr es er ss sr = Except.ok st)
    (hr : r ∈ st.surfaceReactions) (hs : s ∈ r.species) : s ∈ st.surfaceSpecies := by
  obtain ⟨-, h2, h3, -, -, -⟩ := initializeModel_ok_spec cs cr es er ss sr st hok
  rw [h3] at hr
  rw [h2]
  exact mem_keptSpecies_of ss sr r s hr hs

/-- Witness for C1: in the concrete 9-species scenario, species 6 of the
retained reaction `rxnC` is in the resolved surface species. -/
theorem surface_closure_witness : (6 : Nat) ∈ st9.surfaceSpecies :=
  surface_closure coreSpecies9 coreReactions9 [] [] [7, 6] [rxnA, rxnC, rxnD] st9
    rxnC 6 rfl (by decide) (by decide)

/-- C3: in the concrete 9-core-species / 4-core-reaction network, calling
`initializeModel` with candidate surface species from positions 6 and 7 and
candidate surface reactions 0, 2 and 3 produces a resolved surface with exactly
1 surviving surface species and exactly 2 surviving surface reactions. -/
theorem surface_initialization_scenario :
    Except.map (fun st => (st.surfaceSpecies.length, st.surfaceReactions.length))
      (initializeModel coreSpecies9 coreReactions9 [] [] [7, 6] [rxnA, rxnC, rxnD]) =
      Except.ok (1, 2) := rfl

/-- C4: in the concrete 7-core-species setup whose sole core reaction is also
the sole surface reaction, with surface species 5, edge species 6 and 7 and
the three candidate edge reactions, `initializeModel` succeeds and
`getLayeringIndices` returns boundary indices whose first two entries are
1 and 2. -/
theorem surface_layering_scenario :
    Except.map
      (fun st =>
        (getLayeringIndices st.coreSpecies st.surfaceSpecies st.edgeReactions).take 2)
      (initializeModel coreSpecies7 [rxnA] [6, 7] [rxnQ1, rxnQ2, rxnQ3] [5] [rxnA]) =
      Except.ok [1, 2] := rfl

/-- C7: in the concrete 6-core-species / 1-core-reaction setup with initially
empty surface lists, `initializeModel` succeeds and `addReactionsToSurface`
applied to all edge reactions (with their edge indices) returns updated lists
whose surface species are exactly the edge species and whose surface reactions
are exactly the edge reactions, newly-eligible elements appended in order. -/
theorem add_reactions_scenario :
    (∃ st, initializeModel [0, 1, 2, 3, 4, 5] [rxnA] [6, 7, 8] [rxnB, rxnC, rxnD] [] [] =
      Except.ok st) ∧
    addReactionsToSurface [rxnB, rxnC, rxnD] [0, 1, 2] [] [] [6, 7, 8] =
      ([7, 8, 6], [rxnB, rxnC, rxnD]) ∧
    (addReactionsToSurface [rxnB, rxnC, rxnD] [0, 1, 2] [] [] [6, 7, 8]).1.Perm
      [6, 7, 8] := by
  refine ⟨⟨_, rfl⟩, rfl, by decide⟩

/-- C8: the Surface Consistency Resolver is idempotent (running it on its own
output returns that output unchanged) and stable (the output lists are
sublists of the inputs, so the relative candidate order is preserved). -/
theorem resolveSurface_idempotent_stable (ss : List Nat) (sr : List Reaction) :
    resolveSurface (resolveSurface ss sr).1 (resolveSurface ss sr).2 = resolveSurface ss sr ∧
    List.Sublist (resolveSurface ss sr).1 ss ∧
    List.Sublist (resolveSurface ss sr).2 sr := by
  refine ⟨?_, List.filter_sublist ss, List.filter_sublist sr⟩
  have hr : keptReactions (keptSpecies ss sr) (keptReactions ss sr) = keptReactions ss sr := by
    apply List.filter_eq_self.mpr
    intro r hrm
    apply List.all_eq_true.mpr
    intro t ht
    exact decide_eq_true (mem_keptSpecies_of ss sr r t hrm ht)
  have hs : keptSpecies (keptSpecies ss sr) (keptReactions ss sr) = keptSpecies ss sr := by
    conv_lhs => rw [keptSpecies]
    simp only [hr]
    apply List.filter_eq_self.mpr
    intro s hsm
    exact (List.mem_filter.mp hsm).2
  show resolveSurface (keptSpecies ss sr) (keptReactions ss sr) = resolveSurface ss sr
  unfold resolveSurface
  rw [hr, hs]

/-- Scan equation: a candidate whose dependencies are satisfied is selected and
its species join the working surface. -/
theorem layeringFrom_cons_pos (core W : List Nat) (k : Nat) (r : Reaction)
    (rest : List Reaction) (hg : depsSatisfied core W r = true) :
    layeringFrom core W k (r :: rest) =
      k :: layeringFrom core (W ++ r.species) (k + 1) rest := by
  simp [layeringFrom, hg]

/-- Scan equation: a candidate whose dependencies are unsatisfied is excluded
and the working surface is unchanged. -/
theorem layeringFrom_cons_neg (core W : List Nat) (k : Nat) (r : Reaction)
    (rest : List Reaction) (hg : depsSatisfied core W r = false) :
    layeringFrom core W k (r :: rest) = layeringFrom core W (k + 1) rest := by
  simp [layeringFrom, hg]

/-- Working-set equation for a selected candidate. -/
theorem workAfter_cons_pos (core W : List Nat) (r : Reaction) (rest : List Reaction)
    (hg : depsSatisfied core W r = true) :
    workAfter core W (r :: rest) = workAfter core (W ++ r.species) rest := by
  simp [workAfter, hg]

/-- Working-set equation for an excluded candidate. -/
theorem workAfter_cons_neg (core W : List Nat) (r : Reaction) (rest : List Reaction)
    (hg : depsSatisfied core W r = false) :
    workAfter core W (r :: rest) = workAfter core W rest := by
  simp [workAfter, hg]

/-- Every position selected by the layering scan is at least the position
counter it started from. -/
theorem layeringFrom_le (core : List Nat) :
    ∀ (cands : List Reaction) (W : List Nat) (k m : Nat),
      m ∈ layeringFrom core W k cands → k ≤ m := by
  intro cands
  induction cands with
  | nil =>
    intro W k m hm
    simp [layeringFrom] at hm
  | cons r rest ih =>
    intro W k m hm
    cases hg : depsSatisfied core W r with
    | true =>
      rw [layeringFrom_cons_pos core W k r rest hg] at hm
      rcases List.mem_cons.mp hm with h | h
      · exact h ▸ Nat.le_refl k
      · exact Nat.le_of_succ_le (ih (W ++ r.species) (k + 1) m h)
    | false =>
      rw [layeringFrom_cons_neg core W k r rest hg] at hm
      exact Nat.le_of_succ_le (ih W (k + 1) m hm)

/-- Soundness of the layering scan: every dependent species of a selected
candidate is in the core or in the working surface-species set accumulated
over the earlier candidates. -/
theorem layeringFrom_sound (core : List Nat) :
    ∀ (cands : List Reaction) (W : List Nat) (k i : Nat) (h : i < cands.length),
      k + i ∈ layeringFrom core W k cands →
      ∀ s ∈ (cands.get ⟨i, h⟩).species,
        s ∈ core ∨ s ∈ workAfter core W (cands.take i) := by
  intro cands
  induction cands with
  | nil =>
    intro W k i h
    exact absurd h (Nat.not_lt_zero i)
  | cons r rest ih =>
    intro W k i h hmem s hs
    cases hg : depsSatisfied core W r with
    | true =>
      rw [layeringFrom_cons_pos core W k r rest hg] at hmem
      cases i with
      | zero =>
        have hx : (decide (s ∈ core) || decide (s ∈ W)) = true := by
          have hg' : r.species.all
              (fun t => decide (t ∈ core) || decide (t ∈ W)) = true := hg
          exact List.all_eq_true.mp hg' s hs
        rcases Bool.or_eq_true_iff.mp hx with hc | hw
        · exact Or.inl (of_decide_eq_true hc)
        · exact Or.inr (of_decide_eq_true hw)
      | succ j =>
        have hne : k + (j + 1) ≠ k := by omega
        have hmem1 : k + (j + 1) ∈ layeringFrom core (W ++ r.species) (k + 1) rest := by
          rcases List.mem_cons.mp hmem with he | ht
          · exact absurd he hne
          · exact ht
        have harith : k + (j + 1) = (k + 1) + j := by omega
        rw [harith] at hmem1
        have hj : j < rest.length := Nat.lt_of_succ_lt_succ h
        have hs' : s ∈ (rest.get ⟨j, hj⟩).species := by
          rw [List.get_cons_succ] at hs
          exact hs
        have hih := ih (W ++ r.species) (k + 1) j hj hmem1 s hs'
        rw [List.take_succ_cons, workAfter_cons_pos core W r (rest.take j) hg]
        exact hih
    | false =>
      rw [layeringFrom_cons_neg core W k r rest hg] at hmem
      have hge : k + 1 ≤ k + i := layeringFrom_le core rest W (k + 1) (k + i) hmem
      cases i with
      | zero => omega
      | succ j =>
        have harith : k + (j + 1) = (k + 1) + j := by omega
        rw [harith] at hmem
        have hj : j < rest.length := Nat.lt_of_succ_lt_succ h
        have hs' : s ∈ (rest.get ⟨j, hj⟩).species := by
          rw [List.get_cons_succ] at hs
          exact hs
        have hih := ih W (k + 1) j hj hmem s hs'
        rw [List.take_succ_cons, workAfter_cons_neg core W r (rest.take j) hg]
        exact hih

/-- C2: the Layering Extension Finder never selects for promotion a reaction
whose dependent species are not all already in the core or in the working
surface-species set at the time that reaction is processed, regardless of the
order of the candidate list. -/
theorem layering_never_promotes_unsatisfied (core surface : List Nat)
    (cands : List Reaction) (i : Nat) (h : i < cands.length)
    (hm : i ∈ getLayeringIndices core surface cands) (s : Nat)
    (hs : s ∈ (cands.get ⟨i, h⟩).species) :
    s ∈ core ∨ s ∈ workAfter core surface (cands.take i) := by
  apply layeringFrom_sound core cands surface 0 i h ?_ s hs
  simpa using hm

/-- Witness for C2: in the 7-core-species layering scenario, species 0 of the
selected candidate at position 1 was already in the core when it was
processed. -/
theorem layering_never_promotes_unsatisfied_witness :
    (0 : Nat) ∈ coreSpecies7 ∨
      (0 : Nat) ∈ workAfter coreSpecies7 [5] ([rxnQ1, rxnQ2, rxnQ3].take 1) :=
  layering_never_promotes_unsatisfied coreSpecies7 [5] [rxnQ1, rxnQ2, rxnQ3] 1
    (by decide) (by decide) 0 (by decide)

/-- C6: `initializeModel` raises an `IndexingError` if and only if a provided
surface species is not found in the provided core species list or a provided
surface reaction is not found in the provided core reactions list; the error is
returned to the caller rather than being handled internally. -/
theorem initializeModel_raises_iff (cs : List Nat) (cr : List Reaction) (es : List Nat)
    (er : List Reaction) (ss : List Nat) (sr : List Reaction) :
    (∃ e, initializeModel cs cr es er ss sr = Except.error e) ↔
      ((∃ s, s ∈ ss ∧ s ∉ cs) ∨ (∃ r, r ∈ sr ∧ r ∉ cr)) := by
  unfold initializeModel
  by_cases h1 : ss.all (fun s => decide (s ∈ cs)) = true
  · by_cases h2 : sr.all (fun r => decide (r ∈ cr)) = true
    · rw [if_pos h1, if_pos h2]
      simp only [List.all_eq_true, decide_eq_true_eq] at h1 h2
      constructor
      · rintro ⟨e, he⟩
        exact Except.noConfusion he
      · rintro (⟨s, hsm, hns⟩ | ⟨r, hrm, hnr⟩)
        · exact absurd (h1 s hsm) hns
        · exact absurd (h2 r hrm) hnr
    · rw [if_pos h1, if_neg h2]
      simp only [List.all_eq_true, decide_eq_true_eq] at h2
      push_neg at h2
      constructor
      · intro _
        right
        obtain ⟨r, hrm, hnr⟩ := h2
        exact ⟨r, hrm, hnr⟩
      · intro _
        exact ⟨IndexingError.reactionNotInCore, rfl⟩
  · rw [if_neg h1]
    simp only [List.all_eq_true, decide_eq_true_eq] at h1
    push_neg at h1
    constructor
    · intro _
      left
      obtain ⟨s, hsm, hns⟩ := h1
      exact ⟨s, hsm, hns⟩
    · intro _
      exact ⟨IndexingError.speciesNotInCore, rfl⟩

/-- Counterexample to C5 as stated: with surface candidates listed against core
order (species 1 before species 0, both kept by the Resolver through `rxnE`),
`initializeModel` produces `surfaceSpeciesIndices = [1, 0]`, which is not a
strictly increasing sequence. -/
theorem surface_indices_not_increasing :
    Except.map (fun st => st.surfaceSpeciesIndices)
      (initializeModel [0, 1] [rxnE] [] [] [1, 0] [rxnE]) = Except.ok [1, 0] ∧
    ¬ List.Pairwise (fun a b => a < b) [1, 0] :=
  ⟨rfl, by decide⟩

/-- C5 (amended): for every valid input, `surfaceSpeciesIndices` lists, in
surface-list order, the zero-based positions of the resolved surface species in
the core species list — the positions correspond, in order, to the resolved
surface species list (they are strictly increasing only when that list follows
core order); in particular, in the 7-core-species scenario with surface
species at core position 5, the indices have length 1 and single entry 5. -/
theorem surface_indices_correspond (cs : List Nat) (cr : List Reaction) (es : List Nat)
    (er : List Reaction) (ss : List Nat) (sr : List Reaction) (st : ReactionSystemState)
    (hok : initializeModel cs cr es er ss sr = Except.ok st) :
    (st.surfaceSpeciesIndices.length = st.surfaceSpecies.length ∧
     ∀ k i sp, st.surfaceSpeciesIndices.get? k = some i →
       st.surfaceSpecies.get? k = some sp → cs.get? i = some sp) ∧
    Except.map (fun t => t.surfaceSpeciesIndices)
      (initializeModel coreSpecies7 [rxnA] [6, 7] [rxnQ1, rxnQ2, rxnQ3] [5] [rxnA]) =
      Except.ok [5] := by
  refine ⟨?_, rfl⟩
  obtain ⟨-, h2, -, h4, h5, -⟩ := initializeModel_ok_spec cs cr es er ss sr st hok
  constructor
  · rw [h2, h4, List.length_map]
  · intro k i sp hik hsk
    rw [h4] at hik
    rw [h2] at hsk
    rw [List.get?_map, hsk] at hik
    have hi : i = cs.indexOf sp := by
      simpa using hik.symm
    subst hi
    have hmem : sp ∈ keptSpecies ss sr := List.get?_mem hsk
    have hss : sp ∈ ss := (List.mem_filter.mp hmem).1
    exact List.indexOf_get? (h5 sp hss)

/-- Witness for C5 (amended): the correspondence instantiated at the concrete
7-core-species scenario, whose resolved state is `st7`. -/
theorem surface_indices_correspond_witness :
    ((st7.surfaceSpeciesIndices.length = st7.surfaceSpecies.length ∧
      ∀ k i sp, st7.surfaceSpeciesIndices.get? k = some i →
        st7.surfaceSpecies.get? k = some sp → coreSpecies7.get? i = some sp) ∧
     Except.map (fun t => t.surfaceSpeciesIndices)
       (initializeModel coreSpecies7 [rxnA] [6, 7] [rxnQ1, rxnQ2, rxnQ3] [5] [rxnA]) =
       Except.ok [5]) :=
  surface_indices_correspond coreSpecies7 [rxnA] [6, 7] [rxnQ1, rxnQ2, rxnQ3] [5] [rxnA]
    st7 rfl

/-- C9: serializing a reactor and deserializing it yields a reactor of the same
concrete variant whose temperature, pressure, termination-conversion criterion
and termination-time criterion are each exactly equal to those of the original
reactor. -/
theorem pickle_roundtrip (r : Reactor) :
    ∃ r2, pickleLoads (pickleDumps r) = some r2 ∧ r2.variant = r.variant ∧
      r2.T = r.T ∧ r2.P = r.P ∧ r2.terminationConversion = r.terminationConversion ∧
      r2.terminationTime = r.terminationTime := by
  refine ⟨r, ?_, rfl, rfl, rfl, rfl, rfl⟩
  cases r with
  | mk va t p c tt => cases va <;> rfl

/-- C10: `initializeModel` mutates the caller-supplied surface lists in place:
on success, the very references the caller passed in hold exactly the
Resolver-filtered surface. -/
theorem initializeModel_mutates_in_place (h : ListHeap) (cs : List Nat)
    (cr : List Reaction) (es : List Nat) (er : List Reaction) (ssRef srRef : Nat)
    (h2 : ListHeap) (st : ReactionSystemState)
    (hok : initializeModelInPlace h cs cr es er ssRef srRef = Except.ok (h2, st)) :
    h2.speciesAt ssRef = (resolveSurface (h.speciesAt ssRef) (h.reactionsAt srRef)).1 ∧
    h2.reactionsAt srRef = (resolveSurface (h.speciesAt ssRef) (h.reactionsAt srRef)).2 := by
  unfold initializeModelInPlace at hok
  split at hok
  next e heq => exact Except.noConfusion hok
  next st2 heq =>
    obtain ⟨-, hB, hC, -, -, -⟩ := initializeModel_ok_spec _ _ _ _ _ _ _ heq
    injection hok with hpair
    obtain ⟨hh2, hst⟩ := Prod.mk.inj hpair
    subst hh2
    constructor
    · simp [writeReactions, writeSpecies, hB, resolveSurface]
    · simp [writeReactions, writeSpecies, hC, resolveSurface]

/-- Witness for C10: in the concrete 9-species scenario, the heap cell holding
the caller's surface lists afterwards contains exactly the resolved surface. -/
theorem initializeModel_mutates_in_place_witness :
    heap9After.speciesAt 0 =
      (resolveSurface (heap9.speciesAt 0) (heap9.reactionsAt 0)).1 ∧
    heap9After.reactionsAt 0 =
      (resolveSurface (heap9.speciesAt 0) (heap9.reactionsAt 0)).2 :=
  initializeModel_mutates_in_place heap9 coreSpecies9 coreReactions9 [] [] 0 0
    heap9After st9 rfl

end RMG
